import Mathlib

/-!
Verification development for a two-pass SIC/XE assembler.

The definitions below are a shallow embedding of `src/assembler.py`:

* `parseLine` embeds `parse_line` (lines 114-134);
* `pass1Step` together with `csectStep`, `useStep`, `extStep`, `regLiteral`,
  `bindLabel`, `p1Advance`, `p1LtorgWalk`, `placeLits` and `p1Tail` embeds the
  body of the Pass-1 loop (lines 249-439);
* `applyRange`, `encodeFormat3Op`, `encodeFormat4`, `byteWordObj`,
  `flushCheck`, `flushRes`, `p2LitWalk` and `pass2Step` embed the body of the
  Pass-2 loop (lines 630-908), and `pass2Run` the surrounding driver.

Python dictionaries are modelled as insertion-ordered association lists
(`alGet`/`alSet`), Python integers as `Int` (with `Int.emod` for `%` and `&`
masks and `Int.fdiv` for `//`), and Python exceptions (`KeyError`,
`ValueError`, `NameError`, `TypeError`) as `Except.error` with a message that
names the exception.  String primitives are re-implemented on `List Char` so
that every definition evaluates by kernel reduction.
-/

deriving instance DecidableEq for Except

namespace Assembler

/-- Test for `pat` being a prefix of a character list (`str.startswith`). -/
def chPre : List Char → List Char → Bool
  | [], _ => true
  | _ :: _, [] => false
  | a :: as, b :: bs => a == b && chPre as bs

/-- Test for `pat` occurring as a contiguous sublist (Python `in` on strings). -/
def chSub (pat : List Char) : List Char → Bool
  | [] => chPre pat []
  | c :: cs => chPre pat (c :: cs) || chSub pat cs

/-- Python `sub in s` for strings. -/
def strContains (s sub : String) : Bool := chSub sub.toList s.toList

/-- Python `s.startswith(pre)`. -/
def pyStartsWith (s pre : String) : Bool := chPre pre.toList s.toList

/-- Python `s.endswith(suf)`. -/
def pyEndsWith (s suf : String) : Bool := chPre suf.toList.reverse s.toList.reverse

/-- Python `s.lstrip()` on characters. -/
def chTrimL (cs : List Char) : List Char := cs.dropWhile Char.isWhitespace

/-- Python `s.rstrip()` on characters. -/
def chTrimR (cs : List Char) : List Char := (cs.reverse.dropWhile Char.isWhitespace).reverse

/-- Python `s.strip()`. -/
def pyStrip (s : String) : String := String.mk (chTrimR (chTrimL s.toList))

/-- Python `s.rstrip()`. -/
def pyRstrip (s : String) : String := String.mk (chTrimR s.toList)

/-- Python `s[n:]` for nonnegative `n`. -/
def pyDrop (s : String) (n : Nat) : String := String.mk (s.toList.drop n)

/-- Python `s[:-n]` for nonnegative `n` (used as `s[2:-1]` pieces). -/
def pyDropRight (s : String) (n : Nat) : String :=
  String.mk (s.toList.take (s.toList.length - n))

/-- Python `s.upper()`. -/
def pyUpper (s : String) : String := String.mk (s.toList.map Char.toUpper)

/-- Python `len(s)`. -/
def pyLen (s : String) : Nat := s.toList.length

/-- Fuelled engine for `str.replace`: on a match, emit the replacement and
continue after the matched segment; otherwise move one character.  The fuel is
the length of the scanned list, which each step consumes at least one of. -/
def chReplaceF (pat rep : List Char) : Nat → List Char → List Char
  | 0, l => l
  | _ + 1, [] => []
  | fuel + 1, c :: cs =>
    if pat ≠ [] ∧ chPre pat (c :: cs) = true then
      rep ++ chReplaceF pat rep fuel (cs.drop (pat.length - 1))
    else c :: chReplaceF pat rep fuel cs

/-- Python `s.replace(pat, rep)` (the sources only use nonempty patterns). -/
def pyReplace (s pat rep : String) : String :=
  String.mk (chReplaceF pat.toList rep.toList s.toList.length s.toList)

/-- Split on a single separator character, keeping empty pieces
(Python `s.split('-')` and friends). -/
def chSplit (sep : Char) : List Char → List (List Char)
  | [] => [[]]
  | c :: cs =>
    let r := chSplit sep cs
    if c = sep then [] :: r else (c :: r.headD []) :: r.tail

/-- Python `s.split(sep)` for a one-character separator. -/
def pySplit (s : String) (sep : Char) : List String :=
  (chSplit sep s.toList).map String.mk

/-- Fuelled engine for whitespace-run splitting. -/
def chWordsF : Nat → List Char → List (List Char)
  | 0, _ => []
  | _ + 1, [] => []
  | fuel + 1, c :: cs =>
    if c.isWhitespace then chWordsF fuel cs
    else (c :: cs.takeWhile (fun x => !x.isWhitespace)) ::
      chWordsF fuel (cs.dropWhile (fun x => !x.isWhitespace))

/-- Python `s.split()`: split on whitespace runs, dropping empty pieces. -/
def pyWords (s : String) : List String :=
  (chWordsF s.toList.length s.toList).map String.mk

/-- Lookup in an insertion-ordered association list (Python `d[k]` / `d.get`). -/
def alGet {α : Type} : List (String × α) → String → Option α
  | [], _ => none
  | (k', v) :: rest, k => if k' = k then some v else alGet rest k

/-- Python `k in d`. -/
def alMem {α : Type} (t : List (String × α)) (k : String) : Bool :=
  (alGet t k).isSome

/-- Python `d[k] = v`: replace in place, or append a fresh key at the end. -/
def alSet {α : Type} : List (String × α) → String → α → List (String × α)
  | [], k, v => [(k, v)]
  | (k', v') :: rest, k, v =>
    if k' = k then (k, v) :: rest else (k', v') :: alSet rest k v

/-- Python `s.isdigit()` (restricted to ASCII digits, as the sources use). -/
def pyIsDigit (s : String) : Bool := !(s == "") && s.toList.all Char.isDigit

/-- Decimal value of an all-digit string. -/
def pyNatVal (s : String) : Nat :=
  s.toList.foldl (fun a c => a * 10 + (c.toNat - 48)) 0

/-- Python `int(s)` for base 10: optional surrounding whitespace and sign. -/
def pyInt (s : String) : Option Int :=
  let t := pyStrip s
  if pyStartsWith t "-" = true then
    if pyIsDigit (pyDrop t 1) then some (-(pyNatVal (pyDrop t 1) : Int)) else none
  else if pyStartsWith t "+" = true then
    if pyIsDigit (pyDrop t 1) then some ((pyNatVal (pyDrop t 1) : Int)) else none
  else if pyIsDigit t then some ((pyNatVal t : Int)) else none

/-- Uppercase hexadecimal digits of a natural number. -/
def natHexStr (n : Nat) : String :=
  String.mk ((Nat.toDigits 16 n).map Char.toUpper)

/-- Zero padding on the left to width `w`. -/
def leftPad (w : Nat) (s : String) : String :=
  String.mk (List.replicate (w - pyLen s) '0') ++ s

/-- The source's `hexstr` (line 137): Python `f"{v:0{w}X}"`. -/
def hexstr (v : Int) (w : Nat) : String :=
  if v < 0 then "-" ++ leftPad (w - 1) (natHexStr v.natAbs)
  else leftPad w (natHexStr v.toNat)

/-- A parsed source line (the dictionary returned by `parse_line`). -/
structure ParsedLine where
  label : Option String
  opcode : String
  operand : Option String
deriving DecidableEq, Repr

/-- The `DIRECTIVES` set of line 41. -/
def DIRECTIVES : List String :=
  ["START", "END", "BYTE", "WORD", "RESB", "RESW", "BASE", "NOBASE"]

/-- Python `re.split(r"\s+", s, maxsplit=2)` for a string with no leading or
trailing whitespace (the source applies it to `line.strip()`). -/
def splitWsMax2 (s : String) : List String :=
  if s = "" then [""]
  else
    let cs := s.toList
    let t1 := cs.takeWhile (fun c => !c.isWhitespace)
    let r1 := (cs.dropWhile (fun c => !c.isWhitespace)).dropWhile Char.isWhitespace
    if r1.isEmpty then [String.mk t1]
    else
      let t2 := r1.takeWhile (fun c => !c.isWhitespace)
      let r2 := (r1.dropWhile (fun c => !c.isWhitespace)).dropWhile Char.isWhitespace
      if r2.isEmpty then [String.mk t1, String.mk t2]
      else [String.mk t1, String.mk t2, String.mk r2]

/-- The source's `parse_line` (lines 114-134).  Note that the skip test on
line 116 checks `line.startswith('.')` on the raw, untrimmed line. -/
def parseLine (line : String) : Option ParsedLine :=
  if pyStrip line = "" ∨ pyStartsWith line "." = true then none
  else
    let line1 :=
      if strContains line "." = true then
        pyRstrip (String.mk (line.toList.takeWhile (fun c => c ≠ '.')))
      else line
    let parts := splitWsMax2 (pyStrip line1)
    let lop : Option String × String × Option String :=
      match parts with
      | [p0, p1] =>
        if pyUpper p1 ∈ ["CSECT", "RSUB"] ∨ pyUpper p1 ∈ DIRECTIVES then
          (some p0, pyUpper p1, none)
        else (none, p0, some p1)
      | [p0, p1, p2] => (some p0, p1, some p2)
      | _ => (none, parts.headD "", none)
    some ⟨lop.1, pyUpper lop.2.1, lop.2.2⟩

/-- An entry of the opcode table (`load_optab`, lines 26-37). -/
structure OpEntry where
  opcode : Nat
  format : String
deriving DecidableEq, Repr

/-- The opcode table: mnemonic to entry, in file order. -/
abbrev OpTab := List (String × OpEntry)

/-- A literal-table entry (lines 314-319). -/
structure Literal where
  value : String
  address : Option Int
  block : String
deriving DecidableEq, Repr

/-- A block-table entry (line 148 and friends). -/
structure BlockInfo where
  locctr : Int
  address : Int
  size : Int
deriving DecidableEq, Repr

abbrev BlockTab := List (String × BlockInfo)
abbrev SymTab := List (String × Int)
abbrev LitTab := List (String × Literal)

/-- An intermediate record `(lineno, loc, parsed_line, block)`. -/
structure IRec where
  lineno : Int
  loc : Int
  line : ParsedLine
  block : String
deriving DecidableEq, Repr

/-- The mutable state of the Pass-1 loop (lines 226-240). -/
structure P1State where
  symtab : SymTab
  symtabBlock : List (String × String)
  symtabCsect : List (String × String)
  littab : LitTab
  blocktab : BlockTab
  currentBlock : String
  currentCsect : String
  locctr : Int
  intermediate : List IRec
  extdef : List String
  extref : List String
deriving DecidableEq, Repr

/-- The initial Pass-1 state (lines 226-240, before the loop). -/
def p1Init : P1State :=
  { symtab := [], symtabBlock := [], symtabCsect := [], littab := [],
    blocktab := [("DEFAULT", ⟨0, 0, 0⟩)], currentBlock := "DEFAULT",
    currentCsect := "DEFAULT", locctr := 0, intermediate := [],
    extdef := [], extref := [] }

/-- Python truthiness of an optional string: `None` and `""` are falsy. -/
def truthyStr : Option String → Option String
  | some s => if s = "" then none else some s
  | none => none

/-- Insertion into a Python `set`, modelled as an ordered list without
duplicates (iteration order of the set is immaterial to the claims). -/
def setInsert (l : List String) (x : String) : List String :=
  if x ∈ l then l else l ++ [x]

/-- The CSECT branch of Pass 1 (lines 258-277). -/
def csectStep (st : P1State) (k : Int) (p : ParsedLine) :
    Except String (P1State × Bool) :=
  let csect := ((truthyStr p.label).getD
    ((truthyStr p.operand).getD ("CSECT_" ++ toString k)))
  let bt1 := if alMem st.blocktab csect = true then st.blocktab
    else st.blocktab ++ [(csect, ⟨0, 0, 0⟩)]
  let bt2 := match alGet bt1 st.currentBlock with
    | some bi => alSet bt1 st.currentBlock { bi with locctr := st.locctr }
    | none => bt1
  let newLoc := match alGet bt2 csect with
    | some bi => bi.locctr
    | none => 0
  .ok ({ st with
          currentCsect := csect, currentBlock := csect, blocktab := bt2,
          locctr := newLoc,
          intermediate := st.intermediate ++ [⟨(k - 1) * 5, newLoc, p, csect⟩] },
       false)

/-- The USE branch of Pass 1 (lines 279-294). -/
def useStep (st : P1State) (k : Int) (p : ParsedLine) :
    Except String (P1State × Bool) :=
  let opnd := match p.operand with
    | none => "DEFAULT"
    | some o => o
  let key := st.currentCsect ++ "_" ++ opnd
  let bt1 := if alMem st.blocktab key = true then st.blocktab
    else st.blocktab ++ [(key, ⟨0, 0, 0⟩)]
  match alGet bt1 st.currentBlock with
  | none => .error ("KeyError: " ++ st.currentBlock)
  | some bi =>
    let bt2 := alSet bt1 st.currentBlock { bi with locctr := st.locctr }
    let newLoc := match alGet bt2 key with
      | some b2 => b2.locctr
      | none => 0
    .ok ({ st with
            currentBlock := key, blocktab := bt2, locctr := newLoc,
            intermediate := st.intermediate ++ [⟨(k - 1) * 5, newLoc, p, key⟩] },
         false)

/-- The EXTDEF/EXTREF branches of Pass 1 (lines 297-309). -/
def extStep (st : P1State) (k : Int) (p : ParsedLine) (isDef : Bool) : P1State :=
  let names := match truthyStr p.operand with
    | none => []
    | some o => ((pySplit o ',').map pyStrip).filter (fun t => t ≠ "")
  let st1 :=
    if isDef then { st with extdef := names.foldl setInsert st.extdef }
    else { st with extref := names.foldl setInsert st.extref }
  { st1 with intermediate :=
      st.intermediate ++ [⟨(k - 1) * 5, st.locctr, p, st.currentBlock⟩] }

/-- Literal registration (lines 312-319). -/
def regLiteral (st : P1State) (operand : Option String) : P1State :=
  match operand with
  | none => st
  | some o =>
    if pyStartsWith o "=" = true then
      if alMem st.littab o = true then st
      else { st with littab :=
        st.littab ++ [(o, ⟨pyDrop o 1, none, st.currentBlock⟩)] }
    else st

/-- Label binding on the truthiness-filtered label. -/
def bindLabelGo (st : P1State) : Option String → Except String P1State
  | none => .ok st
  | some l =>
    if alMem st.symtab (st.currentCsect ++ "." ++ l) = true then
      .error ("Duplicate symbol: " ++ l ++ " in CSECT " ++ st.currentCsect)
    else
      .ok { st with
            symtab := alSet (alSet st.symtab (st.currentCsect ++ "." ++ l) st.locctr)
              l st.locctr,
            symtabBlock :=
              alSet (alSet st.symtabBlock (st.currentCsect ++ "." ++ l) st.currentBlock)
                l st.currentBlock,
            symtabCsect :=
              alSet (alSet st.symtabCsect (st.currentCsect ++ "." ++ l) st.currentCsect)
                l st.currentCsect }

/-- Label binding (lines 321-335), with the duplicate check of line 324. -/
def bindLabel (st : P1State) (label : Option String) : Except String P1State :=
  bindLabelGo st (truthyStr label)

/-- Byte length of a literal as computed by the RESW/RESB flush
(lines 385-390 and 400-405): both `startswith` and `endswith` are checked. -/
def litResSize (v : String) : Int :=
  if pyStartsWith v "C\x27" = true ∧ pyEndsWith v "\x27" = true then
    (pyLen v : Int) - 3
  else if pyStartsWith v "X\x27" = true ∧ pyEndsWith v "\x27" = true then
    ((pyLen v : Int) - 3).fdiv 2
  else 3

/-- Byte length of a literal as computed by the LTORG/END walk
(lines 428-433): only `startswith` is checked. -/
def litLtorgSize (v : String) : Int :=
  if pyStartsWith v "C\x27" = true then (pyLen v : Int) - 3
  else if pyStartsWith v "X\x27" = true then ((pyLen v : Int) - 3).fdiv 2
  else 3

/-- The literal placement loop before a large reservation
(lines 381-390 / 396-405). -/
def placeLits (blk : String) : LitTab → Int → LitTab × Int
  | [], loc => ([], loc)
  | (nm, d) :: rest, loc =>
    if d.address = none then
      ((nm, { d with address := some loc, block := blk }) ::
        (placeLits blk rest (loc + litResSize d.value)).1,
       (placeLits blk rest (loc + litResSize d.value)).2)
    else
      ((nm, d) :: (placeLits blk rest loc).1, (placeLits blk rest loc).2)

/-- The LTORG/END literal walk of Pass 1 (lines 416-433): assign addresses,
emit synthetic `* BYTE` records, and advance `locctr`. -/
def p1LtorgWalk (blk : String) (k : Int) :
    LitTab → Int → List IRec → LitTab × Int × List IRec
  | [], loc, acc => ([], loc, acc)
  | (nm, d) :: rest, loc, acc =>
    if d.address = none then
      let d' := { d with address := some loc, block := blk }
      let rec0 : IRec := ⟨(k - 1) * 5, loc, ⟨some "*", "BYTE", some d.value⟩, blk⟩
      let (r, loc', acc') :=
        p1LtorgWalk blk k rest (loc + litLtorgSize d.value) (acc ++ [rec0])
      ((nm, d') :: r, loc', acc')
    else
      let (r, loc', acc') := p1LtorgWalk blk k rest loc acc
      ((nm, d) :: r, loc', acc')

/-- The Python key used by the inline EQU branch when the line has no label:
`f"...{None}"` renders as the text `None` (no source label named `None`
occurs in this development). -/
def pyFmtLabel (label : Option String) : String :=
  match label with
  | some l => l
  | none => "None"

/-- The EQU rebinding of lines 365-367 / 371-373: only `symtab` is touched. -/
def bindEqu (st : P1State) (label : Option String) (v : Int) : P1State :=
  { st with symtab :=
              alSet (alSet st.symtab (st.currentCsect ++ "." ++ pyFmtLabel label) v)
                (pyFmtLabel label) v }

/-- The common tail of the Pass-1 loop body (lines 438-439): save `locctr`
into the current block and append the intermediate record (with the
already-advanced `locctr`). -/
def p1Tail (st : P1State) (k : Int) (p : ParsedLine) :
    Except String (P1State × Bool) :=
  match alGet st.blocktab st.currentBlock with
  | none => .error ("KeyError: " ++ st.currentBlock)
  | some bi =>
    .ok ({ st with
            blocktab :=
              alSet st.blocktab st.currentBlock { bi with locctr := st.locctr },
            intermediate :=
              st.intermediate ++ [⟨(k - 1) * 5, st.locctr, p, st.currentBlock⟩] },
      false)

/-- The state update of the EQU branch (lines 356-374). -/
def p1EquSt3 (st : P1State) (label : Option String) (o : String) : P1State :=
  if o = "*" then st
  else if strContains o "-" = true then
    if alMem st.symtab (pyStrip ((pySplit o '-').getD 0 "")) = true ∧
        alMem st.symtab (pyStrip ((pySplit o '-').getD 1 "")) = true then
      bindEqu st label
        ((alGet st.symtab (pyStrip ((pySplit o '-').getD 0 ""))).getD 0 -
         (alGet st.symtab (pyStrip ((pySplit o '-').getD 1 ""))).getD 0)
    else st
  else if pyIsDigit o = true then bindEqu st label ((pyInt o).getD 0)
  else st

/-- The EQU branch of Pass 1 (lines 353-374), on the operand. -/
def p1EquBranch (st : P1State) (k : Int) (p : ParsedLine) :
    Option String → Except String (P1State × Bool)
  | none => .error "TypeError: argument of type NoneType is not iterable"
  | some o => p1Tail (p1EquSt3 st p.label o) k p

/-- The tail of the RESB branch, once the reservation size is known
(lines 393-406). -/
def p1ResbGo (st : P1State) (k : Int) (p : ParsedLine) (res : Int) :
    Except String (P1State × Bool) :=
  if 100 < res then
    p1Tail { st with littab := (placeLits st.currentBlock st.littab st.locctr).1,
                     locctr := (placeLits st.currentBlock st.littab st.locctr).2 + res }
      k p
  else p1Tail { st with locctr := st.locctr + res } k p

/-- Conversion of the RESB operand (`int(operand)`), `ValueError` on failure. -/
def p1ResbInt (st : P1State) (k : Int) (p : ParsedLine) (o : String) :
    Option Int → Except String (P1State × Bool)
  | none => .error ("ValueError: invalid literal for int: " ++ o)
  | some n => p1ResbGo st k p n

/-- The RESB branch of Pass 1 on the (truthiness-filtered) operand:
`res_size = int(operand) if operand else 0`. -/
def p1ResbBranch (st : P1State) (k : Int) (p : ParsedLine) :
    Option String → Except String (P1State × Bool)
  | none => p1ResbGo st k p 0
  | some o => p1ResbInt st k p o (pyInt o)

/-- The opcode/directive dispatch of Pass 1 (lines 343-439) once the opcode
table lookup result is known. -/
def p1AdvanceCore (st : P1State) (k : Int) (p : ParsedLine) (op : String)
    (isExt : Bool) : Option OpEntry → Except String (P1State × Bool)
  | some entry =>
    let d : Int :=
      if isExt then 4
      else if strContains entry.format "2" = true ∧
          strContains entry.format "3" = false then 2
      else 3
    p1Tail { st with locctr := st.locctr + d } k p
  | none =>
    if op = "EQU" then p1EquBranch st k p p.operand
    else if op = "WORD" then p1Tail { st with locctr := st.locctr + 3 } k p
    else if op = "RESW" then
      match p.operand with
      | none => .error "TypeError: NoneType cannot be interpreted as an integer"
      | some o =>
        match pyInt o with
        | none => .error ("ValueError: invalid literal for int: " ++ o)
        | some n => p1ResbGo st k p (3 * n)
    else if op = "RESB" then p1ResbBranch st k p (truthyStr p.operand)
    else if op = "BYTE" then
      match p.operand with
      | none => .error "AttributeError: NoneType has no attribute startswith"
      | some o =>
        if pyStartsWith o "C\x27" = true ∧ pyEndsWith o "\x27" = true then
          p1Tail { st with locctr := st.locctr + ((pyLen o : Int) - 3) } k p
        else if pyStartsWith o "X\x27" = true ∧ pyEndsWith o "\x27" = true then
          p1Tail { st with locctr := st.locctr + (((pyLen o : Int) - 3).fdiv 2) } k p
        else .error ("Invalid BYTE operand: " ++ o)
    else if op = "LTORG" ∨ op = "END" then
      let w := p1LtorgWalk st.currentBlock k st.littab st.locctr []
      let st3 := { st with
                   littab := w.1, locctr := w.2.1,
                   intermediate := st.intermediate ++ w.2.2 }
      if op = "END" then
        .ok ({ st3 with intermediate := st3.intermediate ++
                          [⟨(k - 1) * 5, st3.locctr, p, st3.currentBlock⟩] }, true)
      else p1Tail st3 k p
    else p1Tail st k p

/-- The opcode/directive dispatch of Pass 1 (lines 343-439), applied after
literal registration and label binding; `op` is the mnemonic with any leading
`+` stripped. -/
def p1Advance (optab : OpTab) (st : P1State) (k : Int) (p : ParsedLine)
    (op : String) (isExt : Bool) : Except String (P1State × Bool) :=
  p1AdvanceCore st k p op isExt (alGet optab op)

/-- One iteration of the Pass-1 loop (lines 249-439) on an already parsed
line; the returned flag is `true` when the loop `break`s (END). -/
def pass1Step (optab : OpTab) (st : P1State) (k : Int) (p : ParsedLine) :
    Except String (P1State × Bool) :=
  if p.opcode = "CSECT" then csectStep st k p
  else if p.opcode = "USE" then useStep st k p
  else if p.opcode = "EXTDEF" then .ok (extStep st k p true, false)
  else if p.opcode = "EXTREF" then .ok (extStep st k p false, false)
  else
    match bindLabel (regLiteral st p.operand) p.label with
    | .error m => .error m
    | .ok st2 =>
      if pyStartsWith p.opcode "+" = true then
        p1Advance optab st2 k p (pyDrop p.opcode 1) true
      else p1Advance optab st2 k p p.opcode false

/-- The Pass-1 loop over raw source lines, starting at line number `k`
(the source enumerates from 2); comment and blank lines are skipped by
`parseLine`, and END stops the walk. -/
def pass1Lines (optab : OpTab) : P1State → Int → List String → Except String P1State
  | st, _, [] => .ok st
  | st, k, l :: ls =>
    match parseLine l with
    | none => pass1Lines optab st (k + 1) ls
    | some p =>
      match pass1Step optab st k p with
      | .error m => .error m
      | .ok (st', true) => .ok st'
      | .ok (st', false) => pass1Lines optab st' (k + 1) ls

/-- The mutable state of the Pass-2 loop (lines 611-621). -/
structure P2State where
  base : Int
  objectCodes : List (Int × String × String)
  textRecords : List String
  modRecords : List (Int × Nat × String)
  currentText : List String
  currentStart : Option Int
  emitted : List String
deriving DecidableEq, Repr

/-- The initial Pass-2 state. -/
def p2Init : P2State :=
  { base := 0, objectCodes := [], textRecords := [], modRecords := [],
    currentText := [], currentStart := none, emitted := [] }

/-- Packing of a format-3 word (lines 674 and 798): an or-chain, with the
displacement masked to 12 bits (`disp & 0xFFF` on a Python int). -/
def packF3 (code n i x b p e : Nat) (disp : Int) : Nat :=
  (code <<< 16) ||| (n <<< 17) ||| (i <<< 16) ||| (x <<< 15) ||| (b <<< 14) |||
    (p <<< 13) ||| (e <<< 12) ||| (disp.emod 4096).toNat

/-- The register codes of line 656. -/
def regCode (r : String) : Nat :=
  (alGet [("A", 0), ("X", 1), ("L", 2), ("B", 3), ("S", 4), ("T", 5), ("F", 6),
          ("0", 0)] r).getD 0

/-- Helper for `applyRange`: the lines 775-794 retry once the symbol lookup
result is known. -/
def applyRangeSym (base : Int) (s : String) (disp : Int) (b p : Nat) :
    Option Int → Except String (Int × Nat × Nat × Int)
  | some t =>
    if -2048 ≤ disp ∧ disp ≤ 2047 then .ok (disp, b, p, base)
    else if 0 ≤ t - base ∧ t - base ≤ 4095 then .ok (t - base, 1, 0, base)
    else
      let nb := max 0 (t - 2048)
      if 0 ≤ t - nb ∧ t - nb ≤ 4095 then .ok (t - nb, 1, 0, nb)
      else .error ("Displacement out of range for symbol: " ++ s ++
        ". Use + prefix for format 4 extended addressing.")
  | none => .ok (disp, b, p, base)

/-- Lines 773-796: after the addressing-mode dispatch, retry a defined symbol
that is out of PC-relative range base-relatively, rebinding `BASE_ADDR` to
`max(0, sym_addr - 2048)` if the current base does not reach it.  Returns the
final `(disp, b, p, BASE_ADDR)`. -/
def applyRange (symtab : SymTab) (base : Int) (sym : Option String)
    (operand : String) (disp : Int) (b p : Nat) :
    Except String (Int × Nat × Nat × Int) :=
  match sym with
  | some s =>
    if s = "" then
      if -2048 ≤ disp ∧ disp ≤ 2047 then .ok (disp, b, p, base)
      else .error ("Displacement out of range for * expression: " ++ operand)
    else applyRangeSym base s disp b p (alGet symtab s)
  | none =>
    if -2048 ≤ disp ∧ disp ≤ 2047 then .ok (disp, b, p, base)
    else .error ("Displacement out of range for * expression: " ++ operand)

/-- Unfolding equation of `applyRange` on a present symbol. -/
theorem applyRange_some (symtab : SymTab) (base : Int) (s operand : String)
    (disp : Int) (b p : Nat) :
    applyRange symtab base (some s) operand disp b p =
      if s = "" then
        (if -2048 ≤ disp ∧ disp ≤ 2047 then .ok (disp, b, p, base)
         else .error ("Displacement out of range for * expression: " ++ operand))
      else applyRangeSym base s disp b p (alGet symtab s) := rfl

/-- Packing step shared by every format-3 branch (line 798), preceded by the
range retry of lines 773-796. -/
def finish3 (symtab : SymTab) (base : Int) (code n i x b p e : Nat)
    (disp : Int) (sym : Option String) (operand : String) :
    Except String (Nat × Int) :=
  match applyRange symtab base sym operand disp b p with
  | .error m => .error m
  | .ok (d, b', p', base') => .ok (packF3 code n i x b' p' e d, base')

/-- The non-extended format-3 encoding for an instruction with a (truthy)
operand: lines 712-799.  The initial flags of line 669 are
`n, i, x, b, p, e = 1, 1, 0, 1, 0, 0`.  Returns the packed word and the
possibly rebound `BASE_ADDR`. -/
def encodeFormat3Op (symtab : SymTab) (extref : List String) (littab : LitTab)
    (blocktab : BlockTab) (base tloc : Int) (code : Nat) (operand : String) :
    Except String (Nat × Int) :=
  if pyStartsWith operand "=" = true then
    let literal := pyStrip operand
    match alGet littab literal with
    | none => .error ("KeyError: " ++ literal)
    | some lit =>
      match lit.address with
      | none => .error "TypeError: unsupported operand types for +: NoneType and int"
      | some a =>
        match alGet blocktab lit.block with
        | none => .error ("KeyError: " ++ lit.block)
        | some bi =>
          let la := a + bi.address
          let disp := la - (tloc + 3)
          if -2048 ≤ disp ∧ disp ≤ 2047 then
            finish3 symtab base code 1 1 0 1 0 0 disp (some literal) operand
          else if 0 ≤ la - base ∧ la - base ≤ 4095 then
            finish3 symtab base code 1 1 0 1 0 0 (la - base) (some literal) operand
          else
            let nb := max 0 (la - 2048)
            if 0 ≤ la - nb ∧ la - nb ≤ 4095 then
              finish3 symtab nb code 1 1 0 1 0 0 (la - nb) (some literal) operand
            else .error ("Displacement out of range for literal: " ++ literal)
  else if pyStartsWith operand "#" = true then
    let sym := pyDrop operand 1
    if pyIsDigit sym = true then
      finish3 symtab base code 0 1 0 1 0 0 ((pyNatVal sym : Int)) (some sym) operand
    else
      match alGet symtab sym with
      | none => .error ("KeyError: " ++ sym)
      | some v =>
        finish3 symtab base code 0 1 0 1 0 0 (v - (tloc + 3)) (some sym) operand
  else if pyStartsWith operand "@" = true then
    let sym := pyDrop operand 1
    match alGet symtab sym with
    | none => .error ("KeyError: " ++ sym)
    | some v =>
      finish3 symtab base code 1 0 0 1 0 0 (v - (tloc + 3)) (some sym) operand
  else
    let xo : Nat × String :=
      if strContains operand ",X" = true then (1, pyReplace operand ",X" "")
      else (0, operand)
    let sym := pyStrip xo.2
    if pyStartsWith sym "*" = true then
      let off? : Option Int :=
        if 1 < pyLen sym then pyInt (pyDrop sym 1) else some 0
      match off? with
      | none => .error ("ValueError: invalid literal for int: " ++ pyDrop sym 1)
      | some off =>
        finish3 symtab base code 1 1 xo.1 1 0 0 ((tloc + off) - (tloc + 3))
          none operand
    else
      if alGet symtab sym = none ∧ ¬ sym ∈ extref then
        .error ("Undefined symbol: " ++ sym)
      else
        let disp : Int :=
          match alGet symtab sym with
          | some v => v - (tloc + 3)
          | none => 0
        finish3 symtab base code 1 1 xo.1 1 0 0 disp (some sym) operand

/-- The format-4 encoding (lines 682-708): flags `e=1`, `b=p=0`; a symbol in
neither `symtab` nor `extref` also resolves to target 0. -/
def encodeFormat4 (symtab : SymTab) (extref : List String) (code : Nat)
    (operand : String) : Nat :=
  let nio : Nat × Nat × String :=
    if pyStartsWith operand "#" = true then (0, 1, pyDrop operand 1)
    else if pyStartsWith operand "@" = true then (1, 0, pyDrop operand 1)
    else (1, 1, operand)
  let xo : Nat × String :=
    if strContains nio.2.2 ",X" = true then (1, pyStrip (pyReplace nio.2.2 ",X" ""))
    else (0, nio.2.2)
  let target : Int :=
    match alGet symtab xo.2 with
    | some v => v
    | none => if xo.2 ∈ extref then 0 else 0
  (code <<< 24) ||| (nio.1 <<< 25) ||| (nio.2.1 <<< 24) ||| (xo.1 <<< 23) |||
    (0 <<< 22) ||| (0 <<< 21) ||| (1 <<< 20) ||| (target.emod 1048576).toNat

/-- The BYTE/WORD object-code branch of Pass 2 (lines 818-868).  Returns the
hex body and any modification records queued by a WORD expression. -/
def byteWordObj (symtab : SymTab) (extref : List String) (block : String)
    (tloc : Int) (opcode : String) (operand : Option String) :
    Except String (String × List (Int × Nat × String)) :=
  if opcode = "WORD" then
    match operand with
    | none => .error "TypeError: argument of type NoneType is not iterable"
    | some o =>
      if strContains o "-" = true ∨ strContains o "+" = true then
        let csectName :=
          if strContains block "_" = true then (pySplit block '_').headD block
          else block
        let parts := pyWords (pyReplace (pyReplace o "+" " + ") "-" " - ")
        let res := parts.foldl
          (fun (acc : Int × Int × List (Int × Nat × String)) part =>
            if part = "+" then (acc.1, 1, acc.2.2)
            else if part = "-" then (acc.1, -1, acc.2.2)
            else if part ∈ extref then
              (acc.1, acc.2.1, acc.2.2 ++
                [(tloc, 6, (if acc.2.1 = 1 then "+" else "-") ++ part)])
            else
              match alGet symtab (csectName ++ "." ++ part) with
              | some v => (acc.1 + acc.2.1 * v, acc.2.1, acc.2.2)
              | none =>
                match alGet symtab part with
                | some v => (acc.1 + acc.2.1 * v, acc.2.1, acc.2.2)
                | none =>
                  match pyInt part with
                  | some kv => (acc.1 + acc.2.1 * kv, acc.2.1, acc.2.2)
                  | none => (acc.1, acc.2.1, acc.2.2))
          (0, 1, [])
        .ok (hexstr (res.1.emod 16777216) 6, res.2.2)
      else
        match pyInt o with
        | none => .error ("ValueError: invalid literal for int: " ++ o)
        | some v => .ok (hexstr v 6, [])
  else
    match operand with
    | none => .error "AttributeError: NoneType has no attribute startswith"
    | some o =>
      if pyStartsWith o "C\x27" = true ∧ pyEndsWith o "\x27" = true then
        .ok (String.join ((pyDropRight (pyDrop o 2) 1).toList.map
          (fun c => hexstr (Int.ofNat c.toNat) 2)), [])
      else if pyStartsWith o "X\x27" = true ∧ pyEndsWith o "\x27" = true then
        .ok (pyDropRight (pyDrop o 2) 1, [])
      else .error ("Invalid BYTE operand: " ++ o)

/-- Appending one object string to the Pass-2 buffers (lines 807-810 and
their copies at 662-665 and 869-872). -/
def appendObj (st : P2State) (tloc : Int) (objStr block : String) : P2State :=
  { st with
    objectCodes := st.objectCodes ++ [(tloc, objStr, block)],
    currentStart := match st.currentStart with
      | none => some tloc
      | some s => some s,
    currentText := st.currentText ++ [objStr] }

/-- Total hex length of the buffered object strings (line 813). -/
def currentLen (l : List String) : Nat := (l.map pyLen).sum

/-- Total byte length of the buffered object strings (line 814). -/
def byteLen (l : List String) : Nat := (l.map (fun x => pyLen x / 2)).sum

/-- A text record as assembled on lines 814, 876 and 907.  The start address
is always set when the buffer is nonempty (the source relies on the same
invariant). -/
def mkTRec (start : Option Int) (cur : List String) : String :=
  "T" ++ hexstr (start.getD 0) 6 ++ hexstr (Int.ofNat (byteLen cur)) 2 ++
    String.join cur

/-- Lines 812-816: flush the text buffer only when it already holds more than
60 hex characters. -/
def flushCheck (st : P2State) : P2State :=
  if 60 < currentLen st.currentText then
    { st with textRecords := st.textRecords ++ [mkTRec st.currentStart st.currentText],
              currentText := [], currentStart := none }
  else st

/-- Lines 875-878 (and 906-908): flush whatever is buffered, if anything. -/
def flushRes (st : P2State) : P2State :=
  if st.currentText = [] then st
  else
    { st with textRecords := st.textRecords ++ [mkTRec st.currentStart st.currentText],
              currentText := [], currentStart := none }

/-- The LTORG/END literal walk of Pass 2 (lines 880-902).  For the first
literal that is unemitted and has a pool address, the source computes
`abs_addr` (line 888, unused), decodes the value, and then evaluates the
append of line 899 — which reads the never-assigned name `address` and so
raises `NameError` before anything is emitted. -/
def p2LitWalk (blocktab : BlockTab) (emitted : List String) :
    LitTab → Except String Unit
  | [] => .ok ()
  | (nm, d) :: rest =>
    if nm ∈ emitted then p2LitWalk blocktab emitted rest
    else
      match d.address with
      | none => p2LitWalk blocktab emitted rest
      | some _ =>
        match alGet blocktab d.block with
        | none => .error ("KeyError: " ++ d.block)
        | some _ =>
          if pyStartsWith d.value "C\x27" = true then
            .error "NameError: name \x27address\x27 is not defined"
          else if pyStartsWith d.value "X\x27" = true then
            .error "NameError: name \x27address\x27 is not defined"
          else
            match pyInt d.value with
            | some _ => .error "NameError: name \x27address\x27 is not defined"
            | none => .error ("ValueError: invalid literal for int: " ++ d.value)

/-- One iteration of the Pass-2 loop (lines 630-902); the flag is `true` when
the loop `break`s (END). -/
def pass2Step (optab : OpTab) (symtab : SymTab) (littab : LitTab)
    (blocktab : BlockTab) (extref : List String) (st : P2State) (r : IRec) :
    Except String (P2State × Bool) :=
  match alGet blocktab r.block with
  | none => .error ("KeyError: " ++ r.block)
  | some bi =>
    let tloc := bi.address + r.loc
    let stripped :=
      if pyStartsWith r.line.opcode "+" = true then (true, pyDrop r.line.opcode 1)
      else (false, r.line.opcode)
    let isExt := stripped.1
    let opcode := stripped.2
    let operand := r.line.operand
    match alGet optab opcode with
    | some entry =>
      if opcode = "BASE" then
        match operand with
        | none => .error "KeyError: None"
        | some o =>
          match alGet symtab o with
          | none => .error ("KeyError: " ++ o)
          | some v => .ok ({ st with base := v }, false)
      else
        let code := entry.opcode
        if strContains entry.format "2" = true ∧
            strContains entry.format "3" = false then
          let tokens := match operand with
            | some o => (pySplit o ',').map pyStrip
            | none => []
          let r1 := tokens.getD 0 "0"
          let r2 := tokens.getD 1 "0"
          let objStr :=
            hexstr (Int.ofNat ((code <<< 8) ||| (regCode r1 <<< 4) ||| regCode r2)) 4
          let st1 := appendObj st tloc objStr r.block
          let st2 := appendObj st1 tloc objStr r.block
          .ok (flushCheck st2, false)
        else
          match truthyStr operand with
          | none =>
            let objStr := hexstr (Int.ofNat (packF3 code 1 1 0 1 0 0 0)) 6
            .ok (appendObj st tloc objStr r.block, false)
          | some o =>
            if isExt then
              let objStr := hexstr (Int.ofNat (encodeFormat4 symtab extref code o)) 8
              let target := pyStrip
                (pyReplace (pyReplace (pyReplace o ",X" "") "#" "") "@" "")
              let st1 :=
                if target ∈ extref then
                  { st with modRecords := st.modRecords ++ [(tloc + 1, 5, target)] }
                else st
              .ok (flushCheck (appendObj st1 tloc objStr r.block), false)
            else
              match encodeFormat3Op symtab extref littab blocktab st.base tloc
                  code o with
              | .error m => .error m
              | .ok ov =>
                let objStr := hexstr (Int.ofNat ov.1) 6
                let st1 := { st with base := ov.2 }
                .ok (flushCheck (appendObj st1 tloc objStr r.block), false)
    | none =>
      if opcode = "BYTE" ∨ opcode = "WORD" then
        match byteWordObj symtab extref r.block tloc opcode operand with
        | .error m => .error m
        | .ok om =>
          let st1 := { st with modRecords := st.modRecords ++ om.2 }
          .ok (appendObj st1 tloc om.1 r.block, false)
      else if opcode = "RESW" ∨ opcode = "RESB" then .ok (flushRes st, false)
      else if opcode = "LTORG" ∨ opcode = "END" then
        match p2LitWalk blocktab st.emitted littab with
        | .error m => .error m
        | .ok _ => .ok (st, opcode = "END")
      else .ok (st, false)

/-- The Pass-2 loop over the intermediate records, with END `break`ing. -/
def pass2Steps (optab : OpTab) (symtab : SymTab) (littab : LitTab)
    (blocktab : BlockTab) (extref : List String) :
    P2State → List IRec → Except String P2State
  | st, [] => .ok st
  | st, r :: rs =>
    match pass2Step optab symtab littab blocktab extref st r with
    | .error m => .error m
    | .ok (st', true) => .ok st'
    | .ok (st', false) => pass2Steps optab symtab littab blocktab extref st' rs

/-- The block-address fold of lines 624-628: every symbol value becomes
`value + blocktab[symtab_block[sym]].address`. -/
def foldSymtab : SymTab → List (String × String) → BlockTab → Except String SymTab
  | [], _, _ => .ok []
  | (s, a) :: rest, sb, bt =>
    match alGet sb s with
    | none => .error ("KeyError: " ++ s)
    | some bn =>
      match alGet bt bn with
      | none => .error ("KeyError: " ++ bn)
      | some bi =>
        match foldSymtab rest sb bt with
        | .error m => .error m
        | .ok r => .ok ((s, a + bi.address) :: r)

/-- Pass 2 (lines 609-908, up to the final flush): fold block addresses into
the symbol table, walk the intermediate records, and flush the remainder. -/
def pass2Run (optab : OpTab) (symtab : SymTab) (symtabBlock : List (String × String))
    (blocktab : BlockTab) (littab : LitTab) (extref : List String)
    (intermediate : List IRec) : Except String P2State :=
  match foldSymtab symtab symtabBlock blocktab with
  | .error m => .error m
  | .ok fixed =>
    match pass2Steps optab fixed littab blocktab extref p2Init intermediate with
    | .error m => .error m
    | .ok st => .ok (flushRes st)

/-- Pending byte size of the unplaced literals, as the RESW/RESB flush
advances `locctr` by it. -/
def pendingSize : LitTab → Int
  | [] => 0
  | (_, d) :: rest =>
    (if d.address = none then litResSize d.value else 0) + pendingSize rest

/-- Modelled from the spec: the opcode table is provided externally as
`optab.csv` (spec section 6) and the file itself is not part of `src/`.  This
is a small instance holding standard SIC/XE mnemonics with the format tags the
spec describes, together with the `BASE` row that `pass2` line 644 requires
before it can reach its `BASE` handling on line 645. -/
def OPTABC : OpTab :=
  [("LDA", ⟨0x00, "3/4"⟩), ("STA", ⟨0x0C, "3/4"⟩), ("STL", ⟨0x14, "3/4"⟩),
   ("LDB", ⟨0x68, "3/4"⟩), ("JSUB", ⟨0x48, "3/4"⟩), ("RSUB", ⟨0x4C, "3/4"⟩),
   ("CLEAR", ⟨0xB4, "2"⟩), ("BASE", ⟨0x00, "3/4"⟩)]

/-- The one-block block table shared by the concrete runs. -/
def blocktabD : BlockTab := [("DEFAULT", ⟨0, 0, 0⟩)]

/-- Eleven consecutive `LDA S` intermediate records (each 3 bytes of code). -/
def c2Recs : List IRec :=
  (List.range 11).map
    (fun j => ⟨(j : Int) * 5 + 5, (j : Int) * 3 + 3, ⟨none, "LDA", some "S"⟩, "DEFAULT"⟩)

/-- A literal table holding one placed, unemitted literal. -/
def c3Littab : LitTab := [("=X\x2705\x27", ⟨"X\x2705\x27", some 10, "DEFAULT"⟩)]

/-- Symbols for the BASE/NOBASE run: base symbol and a distant target. -/
def c5Symtab : SymTab := [("B", 4000), ("FAR", 4100)]

def c5SymBlock : List (String × String) := [("B", "DEFAULT"), ("FAR", "DEFAULT")]

/-- BASE, then NOBASE, then an out-of-PC-range reference. -/
def c5Recs : List IRec :=
  [⟨5, 0, ⟨none, "BASE", some "B"⟩, "DEFAULT"⟩,
   ⟨10, 0, ⟨none, "NOBASE", none⟩, "DEFAULT"⟩,
   ⟨15, 3, ⟨none, "LDA", some "FAR"⟩, "DEFAULT"⟩]

/-- A Pass-1 state with `A = 100` defined and `locctr = 50`. -/
def c6State : P1State :=
  { p1Init with symtab := [("A", 100), ("DEFAULT.A", 100)],
                blocktab := [("DEFAULT", ⟨50, 0, 0⟩)], locctr := 50 }

/-- A Pass-1 state with `B1 = 700` and `B2 = 300` defined and `locctr = 50`. -/
def c6StateB : P1State :=
  { p1Init with symtab := [("B1", 700), ("B2", 300)],
                blocktab := [("DEFAULT", ⟨50, 0, 0⟩)], locctr := 50 }

/-- A Pass-1 state with one pending literal and `locctr = 3`. -/
def c7State : P1State :=
  { p1Init with littab := [("=X\x2705\x27", ⟨"X\x2705\x27", none, "DEFAULT"⟩)],
                blocktab := [("DEFAULT", ⟨3, 0, 0⟩)], locctr := 3 }

section Lemmas

theorem alGet_alSet_self {α : Type} (t : List (String × α)) (k : String) (v : α) :
    alGet (alSet t k v) k = some v := by
  induction t with
  | nil => simp [alSet, alGet]
  | cons h rest ih =>
    obtain ⟨k', v'⟩ := h
    by_cases hk : k' = k <;> simp [alSet, alGet, hk, ih]

theorem alGet_alSet_ne {α : Type} (t : List (String × α)) (k k' : String) (v : α)
    (h : k' ≠ k) : alGet (alSet t k v) k' = alGet t k' := by
  induction t with
  | nil =>
    have hne : ¬ k = k' := fun hh => h hh.symm
    simp [alSet, alGet, hne]
  | cons e rest ih =>
    obtain ⟨k0, v0⟩ := e
    by_cases hk : k0 = k
    · subst hk
      have hne : ¬ k0 = k' := fun hh => h hh.symm
      simp [alSet, alGet, hne]
    · simp [alSet, alGet, hk, ih]

theorem chSub_singleton (c : Char) : ∀ l : List Char, chSub [c] l = true → c ∈ l := by
  intro l
  induction l with
  | nil => intro h; simp [chSub, chPre] at h
  | cons x xs ih =>
    intro h
    simp only [chSub, chPre, Bool.or_eq_true, Bool.and_eq_true] at h
    rcases h with ⟨hc, _⟩ | hrest
    · exact (beq_iff_eq.mp hc) ▸ List.mem_cons_self x xs
    · exact List.mem_cons_of_mem x (ih hrest)

theorem contains_char_not_digit (o : String) (c : Char) (hc : c.isDigit = false)
    (h : chSub [c] o.toList = true) : pyIsDigit o = false := by
  have hm : c ∈ o.toList := chSub_singleton c o.toList h
  cases hall : o.toList.all Char.isDigit with
  | false => unfold pyIsDigit; rw [hall]; simp
  | true =>
    have := List.all_eq_true.mp hall c hm
    rw [hc] at this
    exact absurd this (by simp)

theorem pyLen_append (a b : String) : pyLen (a ++ b) = pyLen a + pyLen b := by
  cases a with
  | mk da =>
    cases b with
    | mk db =>
      show (da ++ db).length = da.length + db.length
      exact List.length_append da db

theorem ne_of_pyLen_ne (a b : String) (h : pyLen a ≠ pyLen b) : a ≠ b := by
  intro he; exact h (by rw [he])

theorem join_foldl_length (L : List String) :
    ∀ s : String, pyLen (L.foldl (fun r t => r ++ t) s) = pyLen s + currentLen L := by
  induction L with
  | nil => intro s; simp [currentLen]
  | cons x xs ih =>
    intro s
    rw [List.foldl_cons, ih (s ++ x), pyLen_append]
    simp only [currentLen, List.map_cons, List.sum_cons]
    ring

theorem join_length (L : List String) : pyLen (String.join L) = currentLen L := by
  have h := join_foldl_length L ""
  simpa [String.join, pyLen] using h

theorem placeLits_locctr (blk : String) (L : LitTab) :
    ∀ loc : Int, (placeLits blk L loc).2 = loc + pendingSize L := by
  induction L with
  | nil => intro loc; simp [placeLits, pendingSize]
  | cons e rest ih =>
    intro loc
    obtain ⟨nm, d⟩ := e
    by_cases h : d.address = none
    · show (if d.address = none then _ else _ : LitTab × Int).2 = _
      rw [if_pos h]
      show (placeLits blk rest (loc + litResSize d.value)).2 = _
      rw [ih (loc + litResSize d.value)]
      show _ = loc + ((if d.address = none then litResSize d.value else 0) +
        pendingSize rest)
      rw [if_pos h]
      ring
    · show (if d.address = none then _ else _ : LitTab × Int).2 = _
      rw [if_neg h]
      show (placeLits blk rest loc).2 = _
      rw [ih loc]
      show _ = loc + ((if d.address = none then litResSize d.value else 0) +
        pendingSize rest)
      rw [if_neg h]
      ring

theorem placeLits_addresses (blk : String) (L : LitTab) :
    ∀ loc : Int, ∀ e ∈ (placeLits blk L loc).1, e.2.address.isSome = true := by
  induction L with
  | nil => intro loc e he; simp [placeLits] at he
  | cons x rest ih =>
    intro loc e he
    obtain ⟨nm, d⟩ := x
    by_cases h : d.address = none
    · simp only [placeLits, if_pos h] at he
      rcases List.mem_cons.mp he with rfl | hmem
      · simp
      · exact ih _ _ hmem
    · simp only [placeLits, if_neg h] at he
      rcases List.mem_cons.mp he with rfl | hmem
      · simpa [Option.isSome] using Option.ne_none_iff_isSome.mp h
      · exact ih _ _ hmem

theorem regLiteral_symtab (st : P1State) (o : Option String) :
    (regLiteral st o).symtab = st.symtab := by
  cases o with
  | none => rfl
  | some v =>
    by_cases h1 : pyStartsWith v "=" = true <;>
      by_cases h2 : alMem st.littab v = true <;>
      simp [regLiteral, h1, h2]

theorem regLiteral_locctr (st : P1State) (o : Option String) :
    (regLiteral st o).locctr = st.locctr := by
  cases o with
  | none => rfl
  | some v =>
    by_cases h1 : pyStartsWith v "=" = true <;>
      by_cases h2 : alMem st.littab v = true <;>
      simp [regLiteral, h1, h2]

theorem regLiteral_blocktab (st : P1State) (o : Option String) :
    (regLiteral st o).blocktab = st.blocktab := by
  cases o with
  | none => rfl
  | some v =>
    by_cases h1 : pyStartsWith v "=" = true <;>
      by_cases h2 : alMem st.littab v = true <;>
      simp [regLiteral, h1, h2]

theorem regLiteral_intermediate (st : P1State) (o : Option String) :
    (regLiteral st o).intermediate = st.intermediate := by
  cases o with
  | none => rfl
  | some v =>
    by_cases h1 : pyStartsWith v "=" = true <;>
      by_cases h2 : alMem st.littab v = true <;>
      simp [regLiteral, h1, h2]

theorem regLiteral_currentBlock (st : P1State) (o : Option String) :
    (regLiteral st o).currentBlock = st.currentBlock := by
  cases o with
  | none => rfl
  | some v =>
    by_cases h1 : pyStartsWith v "=" = true <;>
      by_cases h2 : alMem st.littab v = true <;>
      simp [regLiteral, h1, h2]

theorem regLiteral_currentCsect (st : P1State) (o : Option String) :
    (regLiteral st o).currentCsect = st.currentCsect := by
  cases o with
  | none => rfl
  | some v =>
    by_cases h1 : pyStartsWith v "=" = true <;>
      by_cases h2 : alMem st.littab v = true <;>
      simp [regLiteral, h1, h2]

theorem regLiteral_littab_of_no_eq (st : P1State) (o : String)
    (h : pyStartsWith o "=" = false) : (regLiteral st (some o)).littab = st.littab := by
  simp [regLiteral, h]

end Lemmas

section Claims

/-- Claim C1.  The claim says a format-3 instruction whose PC-relative
displacement is in range is emitted with flag bits `b = 0, p = 1`.  In the
code, line 669 initialises `n, i, x, b, p, e = 1, 1, 0, 1, 0, 0` and the
in-range path never resets `b`/`p`, so `LDA S` with `S = 100` at `tloc = 0`
(PC-relative displacement `disp = 100 - (0 + 3) = 97 = 0x061`) is emitted as
`034061`: bit 14 (`b`) is set and bit 13 (`p`) is clear, the opposite of the
claim, while the low 12 bits do equal `disp & 0xFFF` as claimed. -/
theorem c1_format3_flags_bug :
    encodeFormat3Op [("S", 100)] [] [] [] 0 0 0 "S" = .ok (0x34061, 0) ∧
    Nat.testBit 0x34061 14 = true ∧ Nat.testBit 0x34061 13 = false ∧
    0x34061 % 4096 = 97 ∧ ((97 : Int) = 100 - (0 + 3)) := by decide

/-- Claim C2, counterexample.  The claim says every text record carries at
most 30 bytes (60 hex characters) of machine code.  Running Pass 2 over
eleven consecutive `LDA S` instructions produces exactly one text record of
total length 75 = 1 + 6 + 2 + 66: its body holds 66 hex characters (33
bytes), because line 813 flushes only once the buffer already exceeds 60. -/
theorem c2_record_exceeds_30_bytes :
    (pass2Run OPTABC [("S", 100)] [("S", "DEFAULT")] blocktabD [] [] c2Recs).map
      (fun st => st.textRecords.map pyLen) = .ok [75] ∧ ¬(75 - 9 ≤ 60) := by decide

/-- Claim C3.  The claim says the Pass-2 LTORG/END walk writes each placed,
unemitted literal's decoded bytes at its pool address and completes without
error.  The code computes `abs_addr` on line 888 but the append on line 899
reads the never-assigned name `address`, so processing END with one placed
literal raises `NameError` instead. -/
theorem c3_literal_walk_name_error :
    pass2Run OPTABC [] [] blocktabD c3Littab []
      [⟨5, 0, ⟨none, "END", none⟩, "DEFAULT"⟩] =
    .error "NameError: name \x27address\x27 is not defined" := by decide

/-- Claim C4, counterexample.  The claim says a defined-symbol operand that is
out of PC-relative range and out of base-relative range of the current base
makes Pass 2 fail.  For `LDA FAR` with `FAR = 5000`, `tloc = 0` and
`BASE_ADDR = 0`, both premises hold (`disp = 4997` and `5000 - 0 = 5000` are
out of range), yet encoding succeeds: lines 781-791 silently rebind
`BASE_ADDR` to `max(0, 5000 - 2048) = 2952` and emit the base-relative word
`034800` with `disp = 2048`. -/
theorem c4_out_of_range_succeeds :
    encodeFormat3Op [("FAR", 5000)] [] [] [] 0 0 0 "FAR" = .ok (0x34800, 2952) ∧
    ¬(-2048 ≤ (5000 - (0 + 3) : Int) ∧ (5000 - (0 + 3) : Int) ≤ 2047) ∧
    ¬(0 ≤ (5000 - 0 : Int) ∧ (5000 - 0 : Int) ≤ 4095) := by decide

/-- Claim C5.  The claim says a NOBASE line clears `BASE_ADDR` so no later
format-3 instruction is encoded base-relative with the earlier BASE value.
Pass 2 has no NOBASE branch at all: in the run BASE `B` (= 4000), NOBASE,
`LDA FAR` (FAR = 4100, tloc = 3), the final state still has
`BASE_ADDR = 4000` and the LDA is emitted as `034064` — base-relative
(bit 14 set) with displacement `4100 - 4000 = 100 = 0x064` taken from the
value the earlier BASE directive set. -/
theorem c5_nobase_ignored :
    (pass2Run OPTABC c5Symtab c5SymBlock blocktabD [] [] c5Recs).map
      (fun st => (st.base, st.objectCodes)) =
      .ok (4000, [(3, "034064", "DEFAULT")]) ∧
    Nat.testBit 0x34064 14 = true := by decide

/-- Claim C6, counterexample.  The claim says EQU binds its label to the
value of the operand expression for the form `A + B`.  With `A = 100` and
`locctr = 50`, the line `C EQU A+1` leaves `C` bound to 50 (the locctr bound
by the ordinary label pass), not to `A + 1 = 101`: the inline EQU branch of
Pass 1 (lines 353-374) has no `+` case. -/
theorem c6_equ_plus_not_bound :
    (pass1Step OPTABC c6State 2 ⟨some "C", "EQU", some "A+1"⟩).map
      (fun res => (alGet res.1.symtab "C", res.1.locctr)) = .ok (some 50, 50) ∧
    (50 : Int) ≠ 100 + 1 := by decide

/-- Claim C7, counterexample.  The claim says a RESB over 100 bytes flushes
pending literals exactly as an LTORG would, including emitting a synthetic
intermediate record (label `*`, BYTE).  Running Pass 1 over
`LDA =X'05'` then `RESB 1000` assigns the literal its pool address 3 and
advances `locctr` to 3 + 1 + 1000 = 1004, but the intermediate stream holds
only the two source records (labels `[none, none]`) — no `*` record is
emitted, so Pass 2 is never told to output the literal bytes there. -/
theorem c7_resb_no_synthetic_record :
    (pass1Lines OPTABC p1Init 2 ["LDA =X\x2705\x27", "RESB 1000"]).map
      (fun st => (st.littab, st.locctr,
        st.intermediate.map (fun r => (r.line.label, r.line.opcode)))) =
    .ok ([("=X\x2705\x27", ⟨"X\x2705\x27", some 3, "DEFAULT"⟩)], 1004,
      [(none, "LDA"), (none, "RESB")]) := by decide

/-- Claim C8, counterexample.  The claim says an EXTREF symbol resolves to
target 0 in every addressing mode of format 3/4.  In format-3 immediate mode,
line 742 indexes `symtab[sym]` directly, so `JSUB #RDREC` with `RDREC` in
EXTREF but not in the symbol table raises `KeyError` instead of encoding 0
(indirect mode, line 747, fails the same way). -/
theorem c8_immediate_extref_keyerror :
    encodeFormat3Op [] ["RDREC"] [] [] 0 0 0x48 "#RDREC" =
      .error "KeyError: RDREC" ∧
    encodeFormat3Op [] ["RDREC"] [] [] 0 0 0x48 "@RDREC" =
      .error "KeyError: RDREC" := by decide

/-- Claim C9, counterexample.  The claim says any line whose trimmed text
begins with `.` is skipped, including when the `.` is preceded by leading
whitespace.  `parse_line` checks `startswith('.')` on the raw line, so
`"   .comment"` is not skipped: the comment is stripped and the empty
remainder parses to a record with an empty mnemonic. -/
theorem c9_ws_dot_parsed :
    parseLine "   .comment" = some ⟨none, "", none⟩ ∧
    pyStartsWith (pyStrip "   .comment") "." = true := by decide

/-- Claim C9, amended.  The parser skips exactly the lines that trim to empty
or whose raw first character is `.`; a `.` preceded by leading whitespace
does not cause a skip. -/
theorem c9_skip_rule (s : String)
    (h : pyStrip s = "" ∨ pyStartsWith s "." = true) : parseLine s = none := by
  unfold parseLine
  rw [if_pos h]

/-- Witness for `c9_skip_rule` at the whitespace-only line `"   "`. -/
theorem c9_skip_rule_witness : parseLine "   " = none :=
  c9_skip_rule "   " (Or.inl (by decide))

/-- Claim C2, amended.  In the instruction path the text buffer is flushed
only when it already holds strictly more than 60 hex characters, and the
flushed record then carries the whole buffer — more than 60 hex characters
(over 30 bytes) of machine code; a buffer of at most 60 characters is left
untouched. -/
theorem c2_flush_only_above_60 (st : P2State) :
    (currentLen st.currentText ≤ 60 → flushCheck st = st) ∧
    (60 < currentLen st.currentText →
      flushCheck st =
        { st with
          textRecords := st.textRecords ++ [mkTRec st.currentStart st.currentText],
          currentText := [], currentStart := none } ∧
      60 < pyLen (String.join st.currentText)) := by
  constructor
  · intro h
    unfold flushCheck
    rw [if_neg (by omega)]
  · intro h
    refine ⟨?_, ?_⟩
    · unfold flushCheck
      rw [if_pos h]
    · rw [join_length]
      exact h

/-- A buffered state holding eleven 6-character object strings. -/
def c2FlushState : P2State :=
  { p2Init with currentText := List.replicate 11 "034061", currentStart := some 0 }

/-- Witness for `c2_flush_only_above_60` at a 66-character buffer. -/
theorem c2_flush_only_above_60_witness :
    flushCheck c2FlushState =
      { c2FlushState with
        textRecords := c2FlushState.textRecords ++
          [mkTRec c2FlushState.currentStart c2FlushState.currentText],
        currentText := [], currentStart := none } ∧
    60 < pyLen (String.join c2FlushState.currentText) :=
  (c2_flush_only_above_60 c2FlushState).2 (by decide)

/-- Claim C4, amended.  When a defined symbol with a nonnegative address `t`
is out of PC-relative range and out of base-relative range of the current
base, Pass 2 does not fail: it rebinds `BASE_ADDR` to `max 0 (t - 2048)` —
which always brings a nonnegative target back into 0..4095 — and encodes
base-relative (`b = 1, p = 0`) with displacement `t - max 0 (t - 2048)`.  The
displacement error of line 794 is reachable only for a negative target
address. -/
theorem c4_base_rebind (symtab : SymTab) (base : Int) (s operand : String)
    (t disp : Int) (b p : Nat)
    (hs : ¬s = "") (hget : alGet symtab s = some t)
    (hpc : ¬(-2048 ≤ disp ∧ disp ≤ 2047))
    (hbase : ¬(0 ≤ t - base ∧ t - base ≤ 4095)) (ht : 0 ≤ t) :
    applyRange symtab base (some s) operand disp b p =
      .ok (t - max 0 (t - 2048), 1, 0, max 0 (t - 2048)) := by
  have hnb : 0 ≤ t - max 0 (t - 2048) ∧ t - max 0 (t - 2048) ≤ 4095 := by
    rcases le_total (t - 2048) 0 with hle | hle
    · rw [max_eq_left hle]; omega
    · rw [max_eq_right hle]; omega
  rw [applyRange_some, if_neg hs, hget]
  simp only [applyRangeSym]
  rw [if_neg hpc, if_neg hbase, if_pos hnb]

/-- Witness for `c4_base_rebind` at `FAR = 5000`, `disp = 4997`, base 0. -/
theorem c4_base_rebind_witness :
    applyRange [("FAR", 5000)] 0 (some "FAR") "FAR" 4997 1 0 =
      .ok (2048, 1, 0, 2952) := by
  have h := c4_base_rebind [("FAR", 5000)] 0 "FAR" "FAR" 5000 4997 1 0
    (by decide) (by decide) (by omega) (by omega) (by omega)
  rw [h]
  norm_num

/-- Claim C8, amended.  An EXTREF symbol that is absent from the symbol table
resolves to displacement 0 without an undefined-symbol error in format-3
simple addressing (and format 4 behaves likewise); in format-3 immediate and
indirect modes, however, the direct `symtab[sym]` lookup raises `KeyError`
(see the counterexample). -/
theorem c8_extref_simple_resolves_zero (symtab : SymTab) (extref : List String)
    (littab : LitTab) (blocktab : BlockTab) (base tloc : Int) (code : Nat)
    (o : String)
    (h1 : pyStartsWith o "=" = false) (h2 : pyStartsWith o "#" = false)
    (h3 : pyStartsWith o "@" = false) (h4 : strContains o ",X" = false)
    (h5 : pyStartsWith (pyStrip o) "*" = false)
    (h6 : alGet symtab (pyStrip o) = none) (h7 : pyStrip o ∈ extref) :
    encodeFormat3Op symtab extref littab blocktab base tloc code o =
      .ok (packF3 code 1 1 0 1 0 0 0, base) := by
  unfold encodeFormat3Op
  rw [if_neg (by simp [h1]), if_neg (by simp [h2]), if_neg (by simp [h3])]
  simp only [h4, Bool.false_eq_true, if_false]
  simp only [h5, Bool.false_eq_true, if_false]
  rw [if_neg (by rintro ⟨_, hni⟩; exact hni h7)]
  rw [h6]
  unfold finish3
  show (match applyRange symtab base (some (pyStrip o)) o 0 1 0 with
    | Except.error m => Except.error m
    | Except.ok (d, b', p', base') =>
      Except.ok (packF3 code 1 1 0 b' p' 0 d, base')) = _
  rw [applyRange_some]
  by_cases hse : pyStrip o = ""
  · rw [if_pos hse, if_pos (by omega)]
  · rw [if_neg hse, h6]
    rfl

/-- Witness for `c8_extref_simple_resolves_zero` at `JSUB RDREC`. -/
theorem c8_extref_simple_resolves_zero_witness :
    encodeFormat3Op [] ["RDREC"] [] [] 0 0 0x48 "RDREC" =
      .ok (packF3 0x48 1 1 0 1 0 0 0, 0) :=
  c8_extref_simple_resolves_zero [] ["RDREC"] [] [] 0 0 0x48 "RDREC"
    (by decide) (by decide) (by decide) (by decide) (by decide) (by decide)
    (by decide)

end Claims

section StepLemmas

theorem pass1Step_main (optab : OpTab) (st : P1State) (k : Int) (p : ParsedLine)
    (h1 : ¬p.opcode = "CSECT") (h2 : ¬p.opcode = "USE")
    (h3 : ¬p.opcode = "EXTDEF") (h4 : ¬p.opcode = "EXTREF") :
    pass1Step optab st k p =
      match bindLabel (regLiteral st p.operand) p.label with
      | .error m => .error m
      | .ok st2 =>
        if pyStartsWith p.opcode "+" = true then
          p1Advance optab st2 k p (pyDrop p.opcode 1) true
        else p1Advance optab st2 k p p.opcode false := by
  unfold pass1Step
  rw [if_neg h1, if_neg h2, if_neg h3, if_neg h4]

theorem bindLabel_none (st : P1State) (label : Option String)
    (h : truthyStr label = none) : bindLabel st label = .ok st := by
  unfold bindLabel
  rw [h]
  rfl

theorem bindLabel_some (st : P1State) (label : Option String) (l : String)
    (h : truthyStr label = some l)
    (hdup : alGet st.symtab (st.currentCsect ++ "." ++ l) = none) :
    bindLabel st label = .ok { st with
      symtab := alSet (alSet st.symtab (st.currentCsect ++ "." ++ l) st.locctr)
        l st.locctr,
      symtabBlock :=
        alSet (alSet st.symtabBlock (st.currentCsect ++ "." ++ l) st.currentBlock)
          l st.currentBlock,
      symtabCsect :=
        alSet (alSet st.symtabCsect (st.currentCsect ++ "." ++ l) st.currentCsect)
          l st.currentCsect } := by
  unfold bindLabel
  rw [h]
  simp only [bindLabelGo]
  rw [if_neg (by simp [alMem, hdup])]

theorem p1Tail_eq (st : P1State) (k : Int) (p : ParsedLine) (bi : BlockInfo)
    (hbi : alGet st.blocktab st.currentBlock = some bi) :
    p1Tail st k p = .ok ({ st with
      blocktab := alSet st.blocktab st.currentBlock { bi with locctr := st.locctr },
      intermediate :=
        st.intermediate ++ [⟨(k - 1) * 5, st.locctr, p, st.currentBlock⟩] },
      false) := by
  unfold p1Tail
  rw [hbi]

theorem p1AdvanceCore_unknown (st : P1State) (k : Int) (p : ParsedLine)
    (op : String) (isExt : Bool)
    (h1 : ¬op = "EQU") (h2 : ¬op = "WORD") (h3 : ¬op = "RESW")
    (h4 : ¬op = "RESB") (h5 : ¬op = "BYTE")
    (h6 : ¬(op = "LTORG" ∨ op = "END")) :
    p1AdvanceCore st k p op isExt none = p1Tail st k p := by
  simp only [p1AdvanceCore]
  rw [if_neg h1, if_neg h2, if_neg h3, if_neg h4, if_neg h5, if_neg h6]

theorem p1EquSt3_fields (st : P1State) (label : Option String) (o : String) :
    (p1EquSt3 st label o).locctr = st.locctr ∧
    (p1EquSt3 st label o).blocktab = st.blocktab ∧
    (p1EquSt3 st label o).intermediate = st.intermediate ∧
    (p1EquSt3 st label o).currentBlock = st.currentBlock ∧
    (p1EquSt3 st label o).currentCsect = st.currentCsect := by
  unfold p1EquSt3
  by_cases c1 : o = "*"
  · rw [if_pos c1]
    exact ⟨rfl, rfl, rfl, rfl, rfl⟩
  · rw [if_neg c1]
    by_cases c2 : strContains o "-" = true
    · rw [if_pos c2]
      by_cases c3 : alMem st.symtab (pyStrip ((pySplit o '-').getD 0 "")) = true ∧
          alMem st.symtab (pyStrip ((pySplit o '-').getD 1 "")) = true
      · rw [if_pos c3]
        exact ⟨rfl, rfl, rfl, rfl, rfl⟩
      · rw [if_neg c3]
        exact ⟨rfl, rfl, rfl, rfl, rfl⟩
    · rw [if_neg c2]
      by_cases c4 : pyIsDigit o = true
      · rw [if_pos c4]
        exact ⟨rfl, rfl, rfl, rfl, rfl⟩
      · rw [if_neg c4]
        exact ⟨rfl, rfl, rfl, rfl, rfl⟩

theorem scoped_ne (c l : String) : ¬(c ++ "." ++ l) = l := by
  apply ne_of_pyLen_ne
  rw [pyLen_append, pyLen_append]
  have h1 : pyLen "." = 1 := by decide
  omega

end StepLemmas

section ClaimsHeavy

/-- Claim C6, amended.  For every labeled EQU line (label not a duplicate and
not empty), Pass 1 leaves the location counter unchanged and first binds the
label at the current `locctr`; an operand `*` therefore leaves it bound to
the current `locctr` (the value of `*`); an operand `A-B` with A and B
defined symbols (distinct from the label's keys) rebinds the label to
`A - B`; an operand containing `+` but no `-` (such as `A+1`) is not
evaluated at all, leaving the label bound at the current `locctr` rather than
at the expression's value. -/
theorem c6_equ_supported_forms (optab : OpTab) (st : P1State) (k : Int)
    (p : ParsedLine) (l o : String)
    (hop : p.opcode = "EQU") (hno : alGet optab "EQU" = none)
    (hlab : p.label = some l) (hl : ¬l = "")
    (hdup : alGet st.symtab (st.currentCsect ++ "." ++ l) = none)
    (hoper : p.operand = some o)
    (hblk : (alGet st.blocktab st.currentBlock).isSome = true) :
    ∃ st', pass1Step optab st k p = .ok (st', false) ∧
      st'.locctr = st.locctr ∧
      (o = "*" → alGet st'.symtab l = some st.locctr) ∧
      (∀ s1 s2 v1 v2, strContains o "-" = true →
        pyStrip ((pySplit o '-').getD 0 "") = s1 →
        pyStrip ((pySplit o '-').getD 1 "") = s2 →
        ¬s1 = l → ¬s2 = l → ¬s1 = st.currentCsect ++ "." ++ l →
        ¬s2 = st.currentCsect ++ "." ++ l →
        alGet st.symtab s1 = some v1 → alGet st.symtab s2 = some v2 →
        alGet st'.symtab l = some (v1 - v2)) ∧
      (strContains o "-" = false → strContains o "+" = true →
        alGet st'.symtab l = some st.locctr) := by
  have h1 : ¬p.opcode = "CSECT" := by rw [hop]; decide
  have h2 : ¬p.opcode = "USE" := by rw [hop]; decide
  have h3 : ¬p.opcode = "EXTDEF" := by rw [hop]; decide
  have h4 : ¬p.opcode = "EXTREF" := by rw [hop]; decide
  have e1 := pass1Step_main optab st k p h1 h2 h3 h4
  rw [hop, hlab, hoper] at e1
  -- resolve the label binding
  have htl : truthyStr (some l) = some l := by simp [truthyStr, hl]
  have hcs : (regLiteral st (some o)).currentCsect = st.currentCsect :=
    regLiteral_currentCsect st (some o)
  have hsy : (regLiteral st (some o)).symtab = st.symtab :=
    regLiteral_symtab st (some o)
  have hlc : (regLiteral st (some o)).locctr = st.locctr :=
    regLiteral_locctr st (some o)
  have hb := bindLabel_some (regLiteral st (some o)) (some l) l htl
    (by rw [hsy, hcs]; exact hdup)
  rw [hb] at e1
  have e2 : pass1Step optab st k p =
      p1Advance optab
        { regLiteral st (some o) with
          symtab := alSet (alSet (regLiteral st (some o)).symtab
            ((regLiteral st (some o)).currentCsect ++ "." ++ l)
            (regLiteral st (some o)).locctr) l (regLiteral st (some o)).locctr,
          symtabBlock := alSet (alSet (regLiteral st (some o)).symtabBlock
            ((regLiteral st (some o)).currentCsect ++ "." ++ l)
            (regLiteral st (some o)).currentBlock) l
            (regLiteral st (some o)).currentBlock,
          symtabCsect := alSet (alSet (regLiteral st (some o)).symtabCsect
            ((regLiteral st (some o)).currentCsect ++ "." ++ l)
            (regLiteral st (some o)).currentCsect) l
            (regLiteral st (some o)).currentCsect }
        k p "EQU" false := e1
  set ST2 : P1State :=
    { regLiteral st (some o) with
      symtab := alSet (alSet (regLiteral st (some o)).symtab
        ((regLiteral st (some o)).currentCsect ++ "." ++ l)
        (regLiteral st (some o)).locctr) l (regLiteral st (some o)).locctr,
      symtabBlock := alSet (alSet (regLiteral st (some o)).symtabBlock
        ((regLiteral st (some o)).currentCsect ++ "." ++ l)
        (regLiteral st (some o)).currentBlock) l
        (regLiteral st (some o)).currentBlock,
      symtabCsect := alSet (alSet (regLiteral st (some o)).symtabCsect
        ((regLiteral st (some o)).currentCsect ++ "." ++ l)
        (regLiteral st (some o)).currentCsect) l
        (regLiteral st (some o)).currentCsect } with hST2
  -- ST2 field facts
  have f_sy : ST2.symtab =
      alSet (alSet st.symtab (st.currentCsect ++ "." ++ l) st.locctr) l st.locctr := by
    rw [hST2]
    show alSet (alSet (regLiteral st (some o)).symtab
      ((regLiteral st (some o)).currentCsect ++ "." ++ l)
      (regLiteral st (some o)).locctr) l (regLiteral st (some o)).locctr = _
    rw [hsy, hcs, hlc]
  have f_lc : ST2.locctr = st.locctr := by
    rw [hST2]
    show (regLiteral st (some o)).locctr = _
    rw [hlc]
  have f_bt : ST2.blocktab = st.blocktab := by
    rw [hST2]
    show (regLiteral st (some o)).blocktab = _
    rw [regLiteral_blocktab]
  have f_cb : ST2.currentBlock = st.currentBlock := by
    rw [hST2]
    show (regLiteral st (some o)).currentBlock = _
    rw [regLiteral_currentBlock]
  have f_cc : ST2.currentCsect = st.currentCsect := by
    rw [hST2]
    show (regLiteral st (some o)).currentCsect = _
    rw [regLiteral_currentCsect]
  -- resolve the dispatch down to the EQU branch
  have e3 : pass1Step optab st k p = p1EquBranch ST2 k p p.operand := by
    rw [e2]
    unfold p1Advance
    rw [hno]
    simp [p1AdvanceCore]
  rw [hoper] at e3
  have e4 : pass1Step optab st k p = p1Tail (p1EquSt3 ST2 p.label o) k p := e3
  rw [hlab] at e4
  -- run the common tail
  obtain ⟨bi, hbi⟩ := Option.isSome_iff_exists.mp hblk
  have ffields := p1EquSt3_fields ST2 (some l) o
  have hbi3 : alGet (p1EquSt3 ST2 (some l) o).blocktab
      (p1EquSt3 ST2 (some l) o).currentBlock = some bi := by
    rw [ffields.2.1, ffields.2.2.2.1, f_bt, f_cb]
    exact hbi
  have e5 := p1Tail_eq (p1EquSt3 ST2 (some l) o) k p bi hbi3
  rw [e5] at e4
  refine ⟨_, e4, ?_, ?_, ?_, ?_⟩
  · show (p1EquSt3 ST2 (some l) o).locctr = st.locctr
    rw [ffields.1, f_lc]
  · -- operand `*`
    intro ho
    show alGet (p1EquSt3 ST2 (some l) o).symtab l = some st.locctr
    rw [ho]
    show alGet (p1EquSt3 ST2 (some l) "*").symtab l = some st.locctr
    unfold p1EquSt3
    rw [if_pos rfl, f_sy, alGet_alSet_self]
  · -- operand `A-B` with both defined
    intro s1 s2 v1 v2 hcont hs1 hs2 hne1 hne2 hne3 hne4 hv1 hv2
    show alGet (p1EquSt3 ST2 (some l) o).symtab l = some (v1 - v2)
    have ho : ¬o = "*" := by
      intro h
      rw [h] at hcont
      exact absurd hcont (by decide)
    have hg1 : alGet ST2.symtab s1 = some v1 := by
      rw [f_sy, alGet_alSet_ne _ _ _ _ hne1, alGet_alSet_ne _ _ _ _ hne3]
      exact hv1
    have hg2 : alGet ST2.symtab s2 = some v2 := by
      rw [f_sy, alGet_alSet_ne _ _ _ _ hne2, alGet_alSet_ne _ _ _ _ hne4]
      exact hv2
    unfold p1EquSt3
    rw [if_neg ho, if_pos hcont, hs1, hs2]
    rw [if_pos (by constructor <;> simp [alMem, hg1, hg2])]
    rw [hg1, hg2]
    show alGet (bindEqu ST2 (some l) (v1 - v2)).symtab l = some (v1 - v2)
    unfold bindEqu pyFmtLabel
    show alGet (alSet (alSet ST2.symtab (ST2.currentCsect ++ "." ++ l) (v1 - v2))
      l (v1 - v2)) l = some (v1 - v2)
    rw [alGet_alSet_self]
  · -- operand with `+` but no `-`
    intro hnc hpc
    show alGet (p1EquSt3 ST2 (some l) o).symtab l = some st.locctr
    have ho : ¬o = "*" := by
      intro h
      rw [h] at hpc
      exact absurd hpc (by decide)
    have hdig : pyIsDigit o = false := by
      refine contains_char_not_digit o '+' (by decide) ?_
      exact hpc
    unfold p1EquSt3
    rw [if_neg ho, if_neg (by simp [hnc]), if_neg (by simp [hdig])]
    rw [f_sy, alGet_alSet_self]

/-- Witness for `c6_equ_supported_forms` at `C EQU B1-B2`. -/
theorem c6_equ_supported_forms_witness :
    (pass1Step OPTABC c6StateB 2 ⟨some "C", "EQU", some "B1-B2"⟩).map
      (fun res => (alGet res.1.symtab "C", res.1.locctr)) = .ok (some 400, 50) := by
  obtain ⟨st', hstep, hloc, _, hminus, _⟩ :=
    c6_equ_supported_forms OPTABC c6StateB 2 ⟨some "C", "EQU", some "B1-B2"⟩
      "C" "B1-B2" rfl (by decide) rfl (by decide) (by decide) rfl (by decide)
  have h4 := hminus "B1" "B2" 700 300 (by decide) (by decide) (by decide)
    (by decide) (by decide) (by decide) (by decide) (by decide) (by decide)
  rw [hstep]
  show Except.ok (alGet st'.symtab "C", st'.locctr) = Except.ok (some 400, 50)
  rw [h4]
  have hl50 : st'.locctr = (50 : Int) := hloc
  rw [hl50]
  norm_num

theorem bindLabel_fields (st : P1State) (label : Option String)
    (hlab : ∀ l, truthyStr label = some l →
      alGet st.symtab (st.currentCsect ++ "." ++ l) = none) :
    ∃ st2, bindLabel st label = .ok st2 ∧
      st2.locctr = st.locctr ∧ st2.blocktab = st.blocktab ∧
      st2.intermediate = st.intermediate ∧ st2.currentBlock = st.currentBlock ∧
      st2.currentCsect = st.currentCsect ∧ st2.littab = st.littab := by
  cases hl : truthyStr label with
  | none => exact ⟨st, bindLabel_none st label hl, rfl, rfl, rfl, rfl, rfl, rfl⟩
  | some l =>
    exact ⟨_, bindLabel_some st label l hl (hlab l hl), rfl, rfl, rfl, rfl, rfl, rfl⟩

/-- Claim C7, amended.  For every RESB whose reservation exceeds 100 bytes,
Pass 1 assigns every pending literal a pool address and advances `locctr` by
the pending literals' total byte size before adding the reservation — but,
unlike LTORG, it emits no synthetic intermediate record: the intermediate
stream gains only the RESB line itself. -/
theorem c7_resb_places_without_record (optab : OpTab) (st : P1State) (k : Int)
    (p : ParsedLine) (o : String) (n : Int)
    (hop : p.opcode = "RESB") (hno : alGet optab "RESB" = none)
    (hlab : ∀ l, truthyStr p.label = some l →
      alGet st.symtab (st.currentCsect ++ "." ++ l) = none)
    (hoper : p.operand = some o) (ho : ¬o = "")
    (hne : pyStartsWith o "=" = false)
    (hn : pyInt o = some n) (hbig : 100 < n)
    (hblk : (alGet st.blocktab st.currentBlock).isSome = true) :
    ∃ st', pass1Step optab st k p = .ok (st', false) ∧
      st'.locctr = st.locctr + pendingSize st.littab + n ∧
      st'.intermediate = st.intermediate ++
        [⟨(k - 1) * 5, st.locctr + pendingSize st.littab + n, p, st.currentBlock⟩] ∧
      ∀ e ∈ st'.littab, e.2.address.isSome = true := by
  have h1 : ¬p.opcode = "CSECT" := by rw [hop]; decide
  have h2 : ¬p.opcode = "USE" := by rw [hop]; decide
  have h3 : ¬p.opcode = "EXTDEF" := by rw [hop]; decide
  have h4 : ¬p.opcode = "EXTREF" := by rw [hop]; decide
  have e1 := pass1Step_main optab st k p h1 h2 h3 h4
  rw [hop, hoper] at e1
  obtain ⟨ST2, hb, fl, fb, fi, fcb, fcc, flt⟩ :=
    bindLabel_fields (regLiteral st (some o)) p.label (by
      intro l hl
      rw [regLiteral_symtab, regLiteral_currentCsect]
      exact hlab l hl)
  rw [hb] at e1
  have e2 : pass1Step optab st k p = p1Advance optab ST2 k p "RESB" false := e1
  unfold p1Advance at e2
  rw [hno] at e2
  have e3 : pass1Step optab st k p = p1ResbBranch ST2 k p (truthyStr p.operand) := by
    rw [e2]
    simp [p1AdvanceCore]
  have hto : truthyStr p.operand = some o := by
    rw [hoper]
    simp [truthyStr, ho]
  rw [hto] at e3
  have e4 : pass1Step optab st k p = p1ResbInt ST2 k p o (pyInt o) := e3
  rw [hn] at e4
  have e5 : pass1Step optab st k p = p1ResbGo ST2 k p n := e4
  have e6 : pass1Step optab st k p =
      p1Tail { ST2 with
        littab := (placeLits ST2.currentBlock ST2.littab ST2.locctr).1,
        locctr := (placeLits ST2.currentBlock ST2.littab ST2.locctr).2 + n } k p := by
    rw [e5]
    unfold p1ResbGo
    rw [if_pos hbig]
  -- derived field values
  have flt2 : ST2.littab = st.littab :=
    flt.trans (regLiteral_littab_of_no_eq st o hne)
  have fl2 : ST2.locctr = st.locctr := fl.trans (regLiteral_locctr st (some o))
  have fb2 : ST2.blocktab = st.blocktab :=
    fb.trans (regLiteral_blocktab st (some o))
  have fi2 : ST2.intermediate = st.intermediate :=
    fi.trans (regLiteral_intermediate st (some o))
  have fcb2 : ST2.currentBlock = st.currentBlock :=
    fcb.trans (regLiteral_currentBlock st (some o))
  have hplace : (placeLits ST2.currentBlock ST2.littab ST2.locctr).2 + n =
      st.locctr + pendingSize st.littab + n := by
    rw [placeLits_locctr, flt2, fl2]
  obtain ⟨bi, hbi⟩ := Option.isSome_iff_exists.mp hblk
  have hbi2 : alGet ({ ST2 with
      littab := (placeLits ST2.currentBlock ST2.littab ST2.locctr).1,
      locctr := (placeLits ST2.currentBlock ST2.littab ST2.locctr).2 + n} :
        P1State).blocktab
      ({ ST2 with
        littab := (placeLits ST2.currentBlock ST2.littab ST2.locctr).1,
        locctr := (placeLits ST2.currentBlock ST2.littab ST2.locctr).2 + n} :
          P1State).currentBlock = some bi := by
    show alGet ST2.blocktab ST2.currentBlock = some bi
    rw [fb2, fcb2]
    exact hbi
  have e7 := p1Tail_eq _ k p bi hbi2
  rw [e7] at e6
  refine ⟨_, e6, ?_, ?_, ?_⟩
  · exact hplace
  · show ST2.intermediate ++
        [⟨(k - 1) * 5, (placeLits ST2.currentBlock ST2.littab ST2.locctr).2 + n,
          p, ST2.currentBlock⟩] = _
    rw [fi2, hplace, fcb2]
  · intro e he
    exact placeLits_addresses ST2.currentBlock ST2.littab ST2.locctr e he

/-- Witness for `c7_resb_places_without_record` at `RESB 1000` with one
pending literal and `locctr = 3`. -/
theorem c7_resb_places_without_record_witness :
    (pass1Step OPTABC c7State 3 ⟨none, "RESB", some "1000"⟩).map
      (fun res => (res.1.locctr, res.1.intermediate.map (fun r => r.line.label))) =
      .ok (1004, [none]) := by
  obtain ⟨st', hstep, hloc, hint, _⟩ :=
    c7_resb_places_without_record OPTABC c7State 3 ⟨none, "RESB", some "1000"⟩
      "1000" 1000 rfl (by decide) (by intro l hl; simp [truthyStr] at hl)
      rfl (by decide) (by decide) (by decide) (by decide) (by decide)
  rw [hstep]
  show Except.ok (st'.locctr, st'.intermediate.map (fun r => r.line.label)) =
    Except.ok (1004, [none])
  rw [hloc, hint]
  decide

theorem notMemList_unknown (M : String)
    (hm : M ∉ (["START", "CSECT", "USE", "EXTDEF", "EXTREF", "EQU", "WORD",
      "RESW", "RESB", "BYTE", "LTORG", "END"] : List String)) :
    ¬M = "EQU" ∧ ¬M = "WORD" ∧ ¬M = "RESW" ∧ ¬M = "RESB" ∧ ¬M = "BYTE" ∧
      ¬(M = "LTORG" ∨ M = "END") := by
  refine ⟨?_, ?_, ?_, ?_, ?_, ?_⟩
  · intro he; apply hm; rw [he]; decide
  · intro he; apply hm; rw [he]; decide
  · intro he; apply hm; rw [he]; decide
  · intro he; apply hm; rw [he]; decide
  · intro he; apply hm; rw [he]; decide
  · rintro (he | he) <;> (apply hm; rw [he]; decide)

/-- Claim C10.  For every line whose mnemonic, after stripping a leading `+`,
is neither in the opcode table nor one of the directives Pass 1 handles,
Pass 1 raises no error: it leaves `locctr` unchanged, still binds any
(truthy, non-duplicate) label at the current `locctr` under both its scoped
and bare keys, and still appends an intermediate record for the line. -/
theorem c10_unknown_mnemonic_no_error (optab : OpTab) (st : P1State) (k : Int)
    (p : ParsedLine)
    (hm : (if pyStartsWith p.opcode "+" = true then pyDrop p.opcode 1
           else p.opcode) ∉
      (["START", "CSECT", "USE", "EXTDEF", "EXTREF", "EQU", "WORD", "RESW",
        "RESB", "BYTE", "LTORG", "END"] : List String))
    (hno : alGet optab (if pyStartsWith p.opcode "+" = true then pyDrop p.opcode 1
           else p.opcode) = none)
    (hlab : ∀ l, truthyStr p.label = some l →
      alGet st.symtab (st.currentCsect ++ "." ++ l) = none)
    (hblk : (alGet st.blocktab st.currentBlock).isSome = true) :
    ∃ st', pass1Step optab st k p = .ok (st', false) ∧
      st'.locctr = st.locctr ∧
      st'.intermediate = st.intermediate ++
        [⟨(k - 1) * 5, st.locctr, p, st.currentBlock⟩] ∧
      ∀ l, truthyStr p.label = some l →
        alGet st'.symtab l = some st.locctr ∧
        alGet st'.symtab (st.currentCsect ++ "." ++ l) = some st.locctr := by
  have h1 : ¬p.opcode = "CSECT" := by
    intro he
    apply hm
    rw [he]
    decide
  have h2 : ¬p.opcode = "USE" := by
    intro he
    apply hm
    rw [he]
    decide
  have h3 : ¬p.opcode = "EXTDEF" := by
    intro he
    apply hm
    rw [he]
    decide
  have h4 : ¬p.opcode = "EXTREF" := by
    intro he
    apply hm
    rw [he]
    decide
  have e1 := pass1Step_main optab st k p h1 h2 h3 h4
  -- facts about the label-binding result
  cases hl : truthyStr p.label with
  | none =>
    have hb := bindLabel_none (regLiteral st p.operand) p.label hl
    rw [hb] at e1
    have fsy : (regLiteral st p.operand).symtab = st.symtab :=
      regLiteral_symtab st p.operand
    have fl : (regLiteral st p.operand).locctr = st.locctr :=
      regLiteral_locctr st p.operand
    have fb : (regLiteral st p.operand).blocktab = st.blocktab :=
      regLiteral_blocktab st p.operand
    have fi : (regLiteral st p.operand).intermediate = st.intermediate :=
      regLiteral_intermediate st p.operand
    have fcb : (regLiteral st p.operand).currentBlock = st.currentBlock :=
      regLiteral_currentBlock st p.operand
    by_cases hsw : pyStartsWith p.opcode "+" = true
    · rw [if_pos hsw] at hm hno
      have e1x : pass1Step optab st k p =
          if pyStartsWith p.opcode "+" = true then
            p1Advance optab (regLiteral st p.operand) k p (pyDrop p.opcode 1) true
          else p1Advance optab (regLiteral st p.operand) k p p.opcode false := e1
      have e2 : pass1Step optab st k p =
          p1Advance optab (regLiteral st p.operand) k p (pyDrop p.opcode 1) true := by
        rw [e1x, if_pos hsw]
      unfold p1Advance at e2
      rw [hno] at e2
      obtain ⟨m1, m2, m3, m4, m5, m6⟩ := notMemList_unknown _ hm
      rw [p1AdvanceCore_unknown _ k p _ true m1 m2 m3 m4 m5 m6] at e2
      obtain ⟨bi, hbi⟩ := Option.isSome_iff_exists.mp hblk
      have hbi2 : alGet (regLiteral st p.operand).blocktab
          (regLiteral st p.operand).currentBlock = some bi := by
        rw [fb, fcb]
        exact hbi
      rw [p1Tail_eq _ k p bi hbi2] at e2
      refine ⟨_, e2, ?_, ?_, ?_⟩
      · exact fl
      · show (regLiteral st p.operand).intermediate ++
          [⟨(k - 1) * 5, (regLiteral st p.operand).locctr, p,
            (regLiteral st p.operand).currentBlock⟩] = _
        rw [fi, fl, fcb]
      · intro l hl'
        exact absurd hl' (by simp)
    · rw [if_neg hsw] at hm hno
      have e1x : pass1Step optab st k p =
          if pyStartsWith p.opcode "+" = true then
            p1Advance optab (regLiteral st p.operand) k p (pyDrop p.opcode 1) true
          else p1Advance optab (regLiteral st p.operand) k p p.opcode false := e1
      have e2 : pass1Step optab st k p =
          p1Advance optab (regLiteral st p.operand) k p p.opcode false := by
        rw [e1x, if_neg hsw]
      unfold p1Advance at e2
      rw [hno] at e2
      obtain ⟨m1, m2, m3, m4, m5, m6⟩ := notMemList_unknown _ hm
      rw [p1AdvanceCore_unknown _ k p _ false m1 m2 m3 m4 m5 m6] at e2
      obtain ⟨bi, hbi⟩ := Option.isSome_iff_exists.mp hblk
      have hbi2 : alGet (regLiteral st p.operand).blocktab
          (regLiteral st p.operand).currentBlock = some bi := by
        rw [fb, fcb]
        exact hbi
      rw [p1Tail_eq _ k p bi hbi2] at e2
      refine ⟨_, e2, ?_, ?_, ?_⟩
      · exact fl
      · show (regLiteral st p.operand).intermediate ++
          [⟨(k - 1) * 5, (regLiteral st p.operand).locctr, p,
            (regLiteral st p.operand).currentBlock⟩] = _
        rw [fi, fl, fcb]
      · intro l hl'
        exact absurd hl' (by simp)
  | some l0 =>
    have fsy : (regLiteral st p.operand).symtab = st.symtab :=
      regLiteral_symtab st p.operand
    have fl : (regLiteral st p.operand).locctr = st.locctr :=
      regLiteral_locctr st p.operand
    have fb : (regLiteral st p.operand).blocktab = st.blocktab :=
      regLiteral_blocktab st p.operand
    have fi : (regLiteral st p.operand).intermediate = st.intermediate :=
      regLiteral_intermediate st p.operand
    have fcb : (regLiteral st p.operand).currentBlock = st.currentBlock :=
      regLiteral_currentBlock st p.operand
    have fcc : (regLiteral st p.operand).currentCsect = st.currentCsect :=
      regLiteral_currentCsect st p.operand
    have hb := bindLabel_some (regLiteral st p.operand) p.label l0 hl (by
      rw [fsy, fcc]
      exact hlab l0 hl)
    rw [hb] at e1
    set ST2 : P1State :=
      { regLiteral st p.operand with
        symtab := alSet (alSet (regLiteral st p.operand).symtab
          ((regLiteral st p.operand).currentCsect ++ "." ++ l0)
          (regLiteral st p.operand).locctr) l0 (regLiteral st p.operand).locctr,
        symtabBlock := alSet (alSet (regLiteral st p.operand).symtabBlock
          ((regLiteral st p.operand).currentCsect ++ "." ++ l0)
          (regLiteral st p.operand).currentBlock) l0
          (regLiteral st p.operand).currentBlock,
        symtabCsect := alSet (alSet (regLiteral st p.operand).symtabCsect
          ((regLiteral st p.operand).currentCsect ++ "." ++ l0)
          (regLiteral st p.operand).currentCsect) l0
          (regLiteral st p.operand).currentCsect } with hST2
    have gsy : ST2.symtab =
        alSet (alSet st.symtab (st.currentCsect ++ "." ++ l0) st.locctr)
          l0 st.locctr := by
      rw [hST2]
      show alSet (alSet (regLiteral st p.operand).symtab
        ((regLiteral st p.operand).currentCsect ++ "." ++ l0)
        (regLiteral st p.operand).locctr) l0 (regLiteral st p.operand).locctr = _
      rw [fsy, fcc, fl]
    have glc : ST2.locctr = st.locctr := by
      rw [hST2]
      show (regLiteral st p.operand).locctr = _
      rw [fl]
    have gbt : ST2.blocktab = st.blocktab := by
      rw [hST2]
      show (regLiteral st p.operand).blocktab = _
      rw [fb]
    have gin : ST2.intermediate = st.intermediate := by
      rw [hST2]
      show (regLiteral st p.operand).intermediate = _
      rw [fi]
    have gcb : ST2.currentBlock = st.currentBlock := by
      rw [hST2]
      show (regLiteral st p.operand).currentBlock = _
      rw [fcb]
    have hsymfacts : alGet ST2.symtab l0 = some st.locctr ∧
        alGet ST2.symtab (st.currentCsect ++ "." ++ l0) = some st.locctr := by
      constructor
      · rw [gsy, alGet_alSet_self]
      · rw [gsy, alGet_alSet_ne _ _ _ _ (scoped_ne st.currentCsect l0),
          alGet_alSet_self]
    by_cases hsw : pyStartsWith p.opcode "+" = true
    · rw [if_pos hsw] at hm hno
      have e1x : pass1Step optab st k p =
          if pyStartsWith p.opcode "+" = true then
            p1Advance optab ST2 k p (pyDrop p.opcode 1) true
          else p1Advance optab ST2 k p p.opcode false := e1
      have e2 : pass1Step optab st k p =
          p1Advance optab ST2 k p (pyDrop p.opcode 1) true := by
        rw [e1x, if_pos hsw]
      unfold p1Advance at e2
      rw [hno] at e2
      obtain ⟨m1, m2, m3, m4, m5, m6⟩ := notMemList_unknown _ hm
      rw [p1AdvanceCore_unknown _ k p _ true m1 m2 m3 m4 m5 m6] at e2
      obtain ⟨bi, hbi⟩ := Option.isSome_iff_exists.mp hblk
      have hbi2 : alGet ST2.blocktab ST2.currentBlock = some bi := by
        rw [gbt, gcb]
        exact hbi
      rw [p1Tail_eq _ k p bi hbi2] at e2
      refine ⟨_, e2, ?_, ?_, ?_⟩
      · exact glc
      · show ST2.intermediate ++
          [⟨(k - 1) * 5, ST2.locctr, p, ST2.currentBlock⟩] = _
        rw [gin, glc, gcb]
      · intro l hl'
        have hll : l = l0 := (Option.some_injective _ hl').symm
        rw [hll]
        exact hsymfacts
    · rw [if_neg hsw] at hm hno
      have e1x : pass1Step optab st k p =
          if pyStartsWith p.opcode "+" = true then
            p1Advance optab ST2 k p (pyDrop p.opcode 1) true
          else p1Advance optab ST2 k p p.opcode false := e1
      have e2 : pass1Step optab st k p =
          p1Advance optab ST2 k p p.opcode false := by
        rw [e1x, if_neg hsw]
      unfold p1Advance at e2
      rw [hno] at e2
      obtain ⟨m1, m2, m3, m4, m5, m6⟩ := notMemList_unknown _ hm
      rw [p1AdvanceCore_unknown _ k p _ false m1 m2 m3 m4 m5 m6] at e2
      obtain ⟨bi, hbi⟩ := Option.isSome_iff_exists.mp hblk
      have hbi2 : alGet ST2.blocktab ST2.currentBlock = some bi := by
        rw [gbt, gcb]
        exact hbi
      rw [p1Tail_eq _ k p bi hbi2] at e2
      refine ⟨_, e2, ?_, ?_, ?_⟩
      · exact glc
      · show ST2.intermediate ++
          [⟨(k - 1) * 5, ST2.locctr, p, ST2.currentBlock⟩] = _
        rw [gin, glc, gcb]
      · intro l hl'
        have hll : l = l0 := (Option.some_injective _ hl').symm
        rw [hll]
        exact hsymfacts

/-- Witness for `c10_unknown_mnemonic_no_error` at a labeled `FOO` line. -/
theorem c10_unknown_mnemonic_no_error_witness :
    (pass1Step ([] : OpTab) p1Init 2 ⟨some "L", "FOO", none⟩).map
      (fun res => (res.1.locctr, alGet res.1.symtab "L",
        res.1.intermediate.length)) = .ok (0, some 0, 1) := by
  obtain ⟨st', hstep, hloc, hint, hbind⟩ :=
    c10_unknown_mnemonic_no_error ([] : OpTab) p1Init 2 ⟨some "L", "FOO", none⟩
      (by decide) (by decide) (by intro l hl; rfl) (by decide)
  have hb := hbind "L" (by decide)
  rw [hstep]
  show Except.ok (st'.locctr, alGet st'.symtab "L", st'.intermediate.length) =
    Except.ok (0, some 0, 1)
  rw [hloc, hint, hb.1]
  norm_num [p1Init]

end ClaimsHeavy

end Assembler
